import Mathlib

/-!
Verification of the Daily Portrait Timelapse application (main.py) against its
natural-language design specification.

The Python source is shallowly embedded: each relevant function is translated
into an executable Lean definition over explicit state.  Machine floats that
the source only stores and passes around (config guide positions, per-photo
durations) are represented as rationals; they are never the subject of
floating-point-specific reasoning.  Strings are handled at the level of their
character sequences, matching the code-point semantics of Python str values.
-/

namespace DailyPic

/-! ## Frame capture channel (CameraThread)

The camera worker pushes frames into a bounded queue built by
queue.Queue(maxsize=2) using put_nowait, dropping the frame on queue.Full;
the consumer drains the queue with get_frame.  The queue is modelled as a
list, head = oldest element. -/

/-- Embedding of the producer push: put_nowait wrapped in a try/except that
swallows queue.Full, for a queue with maxsize 2.  If the queue already holds
2 items the new frame is dropped, otherwise it is appended. -/
def put_nowait {α : Type} (q : List α) (f : α) : List α :=
  if q.length < 2 then q ++ [f] else q

/-- Embedding of the drain loop inside CameraThread.get_frame: while the
queue is non-empty, overwrite the local frame variable with the next
dequeued item.  The accumulator holds the frame variable (initially none). -/
def drainLoop {α : Type} : List α → Option α → Option α
  | [], last => last
  | f :: rest, _ => drainLoop rest (some f)

/-- Embedding of CameraThread.get_frame: drains the queue fully, returning
the last frame dequeued (or none when the queue was empty) together with the
queue contents left behind (always empty). -/
def get_frame {α : Type} (q : List α) : Option α × List α :=
  (drainLoop q none, [])

/-- One operation on the latest-frame channel: a producer push or a consumer
drain via get_frame. -/
inductive ChanOp (α : Type) : Type
  | push (f : α)
  | drain
deriving DecidableEq

/-- Effect of one channel operation on the queue contents. -/
def chanStep {α : Type} (q : List α) : ChanOp α → List α
  | ChanOp.push f => put_nowait q f
  | ChanOp.drain => (get_frame q).2

theorem drainLoop_or {α : Type} :
    ∀ (q : List α) (acc : Option α), drainLoop q acc = q.getLast?.or acc := by
  intro q
  induction q with
  | nil => intro acc; rfl
  | cons c rest ih =>
    intro acc
    show drainLoop rest (some c) = (c :: rest).getLast?.or acc
    rw [ih (some c), List.getLast?_cons]
    cases rest.getLast? <;> rfl

theorem foldl_put_nowait_of_full {α : Type} :
    ∀ (ps : List α) (q : List α), 2 ≤ q.length → ps.foldl put_nowait q = q := by
  intro ps
  induction ps with
  | nil => intro q _; rfl
  | cons p rest ih =>
    intro q hq
    show rest.foldl put_nowait (put_nowait q p) = q
    have hfull : put_nowait q p = q := by
      unfold put_nowait
      rw [if_neg]
      omega
    rw [hfull]
    exact ih q hq

theorem foldl_put_nowait_nil {α : Type} (ps : List α) :
    ps.foldl put_nowait [] = ps.take 2 := by
  match ps with
  | [] => rfl
  | [a] => rfl
  | a :: b :: rest =>
    show rest.foldl put_nowait (put_nowait (put_nowait [] a) b) = a :: b :: []
    have h2 : put_nowait (put_nowait ([] : List α) a) b = [a, b] := rfl
    rw [h2]
    exact foldl_put_nowait_of_full rest [a, b] (by simp)

/-- Claim C1, counterexample: with three frames pushed into the empty
capacity-2 channel and no intervening consumption, get_frame does not return
the most recently produced frame (frame 3); the drop-newest overflow policy
keeps frames 1 and 2, so frame 2 is returned. -/
theorem get_frame_not_most_recent :
    (get_frame (([1, 2, 3] : List Nat).foldl put_nowait [])).1 ≠ some 3 := by
  decide

/-- Claim C1, amended: CameraThread.get_frame returns the most recently
enqueued frame still in the channel (never one enqueued before it), and none
when the channel is empty; after a sequence of N pushes into the empty
channel with no intervening consumption, the frame returned is the last
accepted one, namely the last of the first two produced frames (frames past
the capacity are dropped). -/
theorem get_frame_latest_enqueued :
    (∀ q : List Nat, (get_frame q).1 = q.getLast?) ∧
      ∀ ps : List Nat, (get_frame (ps.foldl put_nowait [])).1 = (ps.take 2).getLast? := by
  constructor
  · intro q
    show drainLoop q none = q.getLast?
    rw [drainLoop_or]
    cases q.getLast? <;> rfl
  · intro ps
    show drainLoop (ps.foldl put_nowait []) none = (ps.take 2).getLast?
    rw [foldl_put_nowait_nil, drainLoop_or]
    cases (ps.take 2).getLast? <;> rfl

/-- Claim C5: the latest-frame channel never holds more than 2 frames under
any interleaving of producer pushes and consumer drains, and a push onto a
full channel leaves its contents unchanged (the new frame is dropped,
without blocking: put_nowait is a total function of the queue state). -/
theorem channel_capacity_invariant :
    (∀ ops : List (ChanOp Nat), (ops.foldl chanStep []).length ≤ 2) ∧
      ∀ (q : List Nat) (f : Nat), q.length = 2 → put_nowait q f = q := by
  constructor
  · have general : ∀ (ops : List (ChanOp Nat)) (q : List Nat),
        q.length ≤ 2 → (ops.foldl chanStep q).length ≤ 2 := by
      intro ops
      induction ops with
      | nil => intro q h; exact h
      | cons op rest ih =>
        intro q h
        show (rest.foldl chanStep (chanStep q op)).length ≤ 2
        apply ih
        cases op with
        | push f =>
          show (put_nowait q f).length ≤ 2
          unfold put_nowait
          split
          · simp only [List.length_append, List.length_cons, List.length_nil]
            omega
          · exact h
        | drain =>
          show (([] : List Nat)).length ≤ 2
          simp
    intro ops
    exact general ops [] (by simp)
  · intro q f h
    unfold put_nowait
    rw [if_neg]
    omega

/-- Witness for claim C5 at concrete inputs: a concrete interleaving of five
operations keeps the channel within capacity, and a push onto the concrete
full channel [5, 6] is dropped. -/
theorem channel_capacity_invariant_witness :
    (([ChanOp.push 1, ChanOp.push 2, ChanOp.push 3, ChanOp.drain,
        ChanOp.push 4].foldl chanStep ([] : List Nat)).length ≤ 2) ∧
      put_nowait [5, 6] 7 = [5, 6] :=
  ⟨channel_capacity_invariant.1 _, channel_capacity_invariant.2 [5, 6] 7 rfl⟩

/-! ## Config store

Config holds a flat key/value dictionary (self.data), loads it by overlaying
a persisted JSON document onto defaults, and persists it with a deferred
GLib timeout of 500 ms.  The dictionary is modelled as an association list
in insertion order, which matches the ordered-dict semantics of Python
dictionaries; a JSON scalar is a string, a boolean or a number. -/

/-- Scalar value stored in the config dictionary. -/
inductive ConfigVal : Type
  | vs (v : String)
  | vb (v : Bool)
  | vq (v : ℚ)
deriving DecidableEq

/-- Embedding of a Python dictionary item assignment d[k] = v on an
insertion-ordered association list: replace the value in place when the key
is present, otherwise append the new pair at the end. -/
def setKey (d : List (String × ConfigVal)) (k : String) (v : ConfigVal) :
    List (String × ConfigVal) :=
  if d.any (fun p => p.1 = k) then
    d.map (fun p => if p.1 = k then (k, v) else p)
  else
    d ++ [(k, v)]

/-- Embedding of a Python dictionary read d.get(k): value of the first (and
only) pair with the given key, if any. -/
def lookupKey (d : List (String × ConfigVal)) (k : String) : Option ConfigVal :=
  (d.find? (fun p => p.1 = k)).map Prod.snd

/-- Default photos directory chosen in Config.init.  The exact platform
dependent path text is irrelevant to every claim; a fixed representative
value is used. -/
def default_photos : String := "Pictures/DailyPortraits"

/-- Embedding of the default dictionary built in Config.init. -/
def defaultData : List (String × ConfigVal) :=
  [("photos_directory", ConfigVal.vs default_photos),
   ("guide_enabled", ConfigVal.vb true),
   ("guide_x", ConfigVal.vq (1 / 2)),
   ("guide_y", ConfigVal.vq (1 / 2)),
   ("guide_width", ConfigVal.vq (3 / 10)),
   ("guide_height", ConfigVal.vq (2 / 5))]

/-- What Config.load finds on disk: no file, a file json.load rejects, or a
parsed key/value document. -/
inductive LoadedFile : Type
  | absent
  | corrupt
  | doc (kv : List (String × ConfigVal))

/-- Embedding of Python dict.update: item assignments for the document pairs
in order. -/
def dictUpdate (d kv : List (String × ConfigVal)) : List (String × ConfigVal) :=
  kv.foldl (fun acc p => setKey acc p.1 p.2) d

/-- Embedding of Config.load: a missing file leaves the dictionary alone, an
exception from json.load is caught (leaving the dictionary alone), and a
parsed document is overlaid with self.data.update(loaded). -/
def config_load (d : List (String × ConfigVal)) (f : LoadedFile) :
    List (String × ConfigVal) :=
  match f with
  | LoadedFile.absent => d
  | LoadedFile.corrupt => d
  | LoadedFile.doc kv => dictUpdate d kv

/-- Mutable state of a Config instance: the dictionary, the save-pending
flag, and the pending GLib timer, represented by the absolute time (ms) at
which it will fire. -/
structure ConfigState : Type where
  data : List (String × ConfigVal)
  save_pending : Bool
  save_timer : Option Nat

/-- Embedding of Config.save called at absolute time now: when no save is
pending, mark one pending, cancel any existing timer and schedule a new one
500 ms ahead; when a save is already pending, do nothing. -/
def config_save (s : ConfigState) (now : Nat) : ConfigState :=
  if s.save_pending then s else ⟨s.data, true, some (now + 500)⟩

/-- Embedding of Config.set at absolute time now: update the dictionary in
memory, then call save. -/
def config_set (s : ConfigState) (now : Nat) (k : String) (v : ConfigVal) :
    ConfigState :=
  config_save ⟨setKey s.data k v, s.save_pending, s.save_timer⟩ now

/-- Embedding of the successful path of Config.do_save, fired by the timer:
write the whole current dictionary to disk, clear the pending flag and the
timer.  Returns the new state and the document written. -/
def do_save (s : ConfigState) : ConfigState × List (String × ConfigVal) :=
  (⟨s.data, false, none⟩, s.data)

/-- Config state right after construction with no file on disk: defaults,
no save pending, no timer. -/
def initialConfig : ConfigState := ⟨defaultData, false, none⟩

/-- Timed execution of a sequence of set calls, given as (time, key, value)
triples in increasing time order: before processing a set whose time is at
or past the pending timer deadline, the timer fires (emitting a disk write
of the dictionary as of that moment); after the last set, a still-pending
timer fires.  Returns the writes as (time, document) pairs. -/
def runSets (s : ConfigState) :
    List (Nat × String × ConfigVal) → List (Nat × List (String × ConfigVal))
  | [] =>
    match s.save_timer with
    | some tf => [(tf, s.data)]
    | none => []
  | (t, k, v) :: rest =>
    match s.save_timer with
    | some tf =>
      if tf ≤ t then
        (tf, s.data) :: runSets (config_set (do_save s).1 t k v) rest
      else
        runSets (config_set s t k v) rest
    | none => runSets (config_set s t k v) rest

/-- Claim C2: evaluation of the save machinery at the failing input.  Two
set calls arrive at t = 0 ms and t = 300 ms, 300 ms apart (less than the
500 ms delay).  The claim requires the timer to be reset by the second call
so that the single write happens at t = 800 ms; the code performs the write
at t = 500 ms, because Config.save returns without touching the timer when
a save is already pending.  (The write does contain the state after the
last set.) -/
theorem save_timer_not_reset :
    runSets initialConfig
        [(0, "guide_enabled", ConfigVal.vb false),
         (300, "guide_enabled", ConfigVal.vb true)]
      = [(500, setKey defaultData "guide_enabled" (ConfigVal.vb true))] ∧
      500 < 300 + 500 := by
  constructor
  · rfl
  · omega

theorem find?_setKey_map (d : List (String × ConfigVal)) (k k2 : String)
    (v : ConfigVal) :
    (d.map (fun p => if p.1 = k then (k, v) else p)).find? (fun p => p.1 = k2)
      = if k2 = k then (d.find? (fun p => p.1 = k)).map (fun _ => (k, v))
        else d.find? (fun p => p.1 = k2) := by
  induction d with
  | nil => by_cases h : k2 = k <;> simp [h]
  | cons p rest ih =>
    simp only [List.map_cons, List.find?_cons]
    by_cases hpk : p.1 = k
    · by_cases hk : k2 = k
      · subst hk
        simp [hpk]
      · have h2 : ¬(k = k2) := fun h => hk h.symm
        simp [hpk, h2, hk, ih]
    · by_cases hk : k2 = k
      · subst hk
        simp [hpk, ih]
      · by_cases hpk2 : p.1 = k2
        · simp [hpk, hpk2, hk]
        · simp [hpk, hpk2, hk, ih]

theorem lookupKey_setKey (d : List (String × ConfigVal)) (k : String)
    (v : ConfigVal) (k2 : String) :
    lookupKey (setKey d k v) k2 = if k2 = k then some v else lookupKey d k2 := by
  unfold setKey lookupKey
  by_cases hAny : d.any (fun p => p.1 = k) = true
  · rw [if_pos hAny, find?_setKey_map]
    by_cases hk : k2 = k
    · rw [if_pos hk, if_pos hk]
      rcases List.any_eq_true.mp hAny with ⟨p, hp, hpk⟩
      have hsome : (d.find? (fun p => p.1 = k)).isSome :=
        List.find?_isSome.mpr ⟨p, hp, hpk⟩
      rcases Option.isSome_iff_exists.mp hsome with ⟨w, hw⟩
      rw [hw]
      rfl
    · rw [if_neg hk, if_neg hk]
  · rw [if_neg hAny, List.find?_append]
    by_cases hk : k2 = k
    · subst hk
      have hnone : d.find? (fun p => p.1 = k2) = none := by
        rw [List.find?_eq_none]
        intro x hx hcontra
        exact hAny (List.any_eq_true.mpr ⟨x, hx, hcontra⟩)
      rw [hnone, if_pos rfl]
      simp [List.find?]
    · rw [if_neg hk]
      have hone : ([(k, v)] : List (String × ConfigVal)).find?
          (fun p => p.1 = k2) = none := by
        simp [List.find?, Ne.symm hk]
      rw [hone, Option.or_none]

theorem lookupKey_dictUpdate (kv : List (String × ConfigVal)) :
    ∀ (d : List (String × ConfigVal)) (k : String),
      lookupKey (dictUpdate d kv) k
        = ((kv.reverse.find? (fun p => p.1 = k)).map Prod.snd).or
            (lookupKey d k) := by
  induction kv with
  | nil => intro d k; rfl
  | cons e rest ih =>
    intro d k
    show lookupKey (dictUpdate (setKey d e.1 e.2) rest) k = _
    rw [ih (setKey d e.1 e.2) k, lookupKey_setKey, List.reverse_cons,
      List.find?_append]
    cases hfind : rest.reverse.find? (fun p => p.1 = k) with
    | some w => rfl
    | none =>
      show Option.or none _ = Option.or (Option.map _ (Option.or none _)) _
      by_cases he : e.1 = k
      · simp [List.find?, he, Option.or]
      · have hne : ¬(k = e.1) := fun h => he h.symm
        simp [List.find?, he, hne, Option.or]

theorem mem_keys_setKey (d : List (String × ConfigVal)) (k : String)
    (v : ConfigVal) (k2 : String) :
    k2 ∈ (setKey d k v).map Prod.fst ↔ (k2 ∈ d.map Prod.fst ∨ k2 = k) := by
  unfold setKey
  by_cases hAny : d.any (fun p => p.1 = k) = true
  · rw [if_pos hAny]
    rcases List.any_eq_true.mp hAny with ⟨p, hp, hpk⟩
    have hpk2 : p.1 = k := by simpa using hpk
    have hkeys : (d.map (fun p => if p.1 = k then (k, v) else p)).map Prod.fst
        = d.map Prod.fst := by
      rw [List.map_map]
      apply List.map_congr_left
      intro a _
      by_cases ha : a.1 = k
      · simp [ha]
      · simp [ha]
    rw [hkeys]
    constructor
    · intro h; exact Or.inl h
    · intro h
      rcases h with h | h
      · exact h
      · subst h
        exact List.mem_map.mpr ⟨p, hp, hpk2⟩
  · rw [if_neg hAny]
    simp

theorem mem_keys_dictUpdate (kv : List (String × ConfigVal)) :
    ∀ (d : List (String × ConfigVal)) (k2 : String),
      k2 ∈ (dictUpdate d kv).map Prod.fst ↔
        (k2 ∈ d.map Prod.fst ∨ k2 ∈ kv.map Prod.fst) := by
  induction kv with
  | nil => intro d k2; simp [dictUpdate]
  | cons e rest ih =>
    intro d k2
    show k2 ∈ (dictUpdate (setKey d e.1 e.2) rest).map Prod.fst ↔ _
    rw [ih, mem_keys_setKey]
    simp [List.mem_cons, or_assoc]

/-- Claim C9, counterexample: a persisted document carrying the unknown key
zzz_extra is not ignored on load; after load the in-memory dictionary
contains zzz_extra, a key outside the schema default set, so the key set is
not exactly the schema key set. -/
theorem config_load_keeps_unknown_key :
    "zzz_extra" ∈ (config_load defaultData
        (LoadedFile.doc [("zzz_extra", ConfigVal.vb true)])).map Prod.fst ∧
      "zzz_extra" ∉ defaultData.map Prod.fst := by
  constructor
  · decide
  · decide

/-- Claim C9, amended: Config.load with a parsed document overlays every key
of the document onto the defaults, not only schema keys: a key present in
the document maps to its last document value, a key absent from the document
keeps its default value, and the key set after load is the schema key set
together with the document key set (unknown document keys are retained, not
ignored).  An absent or corrupt file non-fatally leaves the defaults in
force. -/
theorem config_load_overlays_document :
    config_load defaultData LoadedFile.absent = defaultData ∧
    config_load defaultData LoadedFile.corrupt = defaultData ∧
    (∀ (kv : List (String × ConfigVal)) (k : String),
      lookupKey (config_load defaultData (LoadedFile.doc kv)) k
        = ((kv.reverse.find? (fun p => p.1 = k)).map Prod.snd).or
            (lookupKey defaultData k)) ∧
    ∀ (kv : List (String × ConfigVal)) (k : String),
      k ∈ (config_load defaultData (LoadedFile.doc kv)).map Prod.fst ↔
        (k ∈ defaultData.map Prod.fst ∨ k ∈ kv.map Prod.fst) := by
  refine ⟨rfl, rfl, ?_, ?_⟩
  · intro kv k
    exact lookupKey_dictUpdate kv defaultData k
  · intro kv k
    exact mem_keys_dictUpdate kv defaultData k

/-! ## Render path with scaled-pixmap cache (CameraView.on_draw)

The draw handler scales the frame to fit the widget, caching the scaled
pixbuf under the key (source width, source height, target width, target
height).  Scaling is modelled abstractly: a scaled surface is determined by
the source pixel buffer it was built from together with the requested
output dimensions, which preserves exactly the information the claim is
about (which frame content reaches the screen). -/

/-- A camera frame: dimensions plus pixel content. -/
structure Frame : Type where
  w : Nat
  h : Nat
  pix : List Nat
deriving DecidableEq

/-- A scaled presentation surface: the source pixels it was built from and
the output dimensions passed to scale_simple. -/
structure Pixbuf : Type where
  srcPix : List Nat
  outW : Nat
  outH : Nat
deriving DecidableEq

/-- Embedding of the scale-to-fit arithmetic of on_draw:
scale = min(width / w, height / h); new_w = int(w * scale);
new_h = int(h * scale).  The Python float arithmetic is carried out
exactly over the rationals. -/
def scaleDims (w h tw th : Nat) : Nat × Nat :=
  let scale : ℚ := min ((tw : ℚ) / (w : ℚ)) ((th : ℚ) / (h : ℚ))
  ((⌊(w : ℚ) * scale⌋).toNat, (⌊(h : ℚ) * scale⌋).toNat)

/-- Embedding of building the pixbuf from the frame bytes and scaling it
with scale_simple to the given output dimensions. -/
def scale_simple (f : Frame) (nw nh : Nat) : Pixbuf :=
  ⟨f.pix, nw, nh⟩

/-- The cache fields of CameraView relevant to on_draw. -/
structure DrawCache : Type where
  cached_pixbuf : Option Pixbuf
  last_frame_size : Option (Nat × Nat × Nat × Nat)
deriving DecidableEq

/-- Embedding of the frame-drawing part of CameraView.on_draw for a frame
and widget allocation (tw, th): the scaled pixbuf is regenerated only when
the (w, h, new_w, new_h) tuple differs from last_frame_size or no pixbuf is
cached; otherwise the cached pixbuf is painted.  Returns the painted pixbuf
and the updated cache. -/
def on_draw (c : DrawCache) (f : Frame) (tw th : Nat) : Pixbuf × DrawCache :=
  let nwh := scaleDims f.w f.h tw th
  let fs := (f.w, f.h, nwh.1, nwh.2)
  if c.last_frame_size = some fs then
    match c.cached_pixbuf with
    | some pb => (pb, c)
    | none =>
      let pb := scale_simple f nwh.1 nwh.2
      (pb, ⟨some pb, some fs⟩)
  else
    let pb := scale_simple f nwh.1 nwh.2
    (pb, ⟨some pb, some fs⟩)

/-- Reference draw path stated by the spec: rescale the current frame on
every tick, with no cache. -/
def draw_uncached (f : Frame) (tw th : Nat) : Pixbuf :=
  scale_simple f (scaleDims f.w f.h tw th).1 (scaleDims f.w f.h tw th).2

/-- Claim C3: evaluation at the failing input.  Two consecutive frames share
the dimensions 2 by 2 on a 4 by 4 target but have different pixel content;
on the second tick the cached draw path repaints the first frame (the
cache key ignores pixel content), while the uncached reference path paints
the second frame, so the cache is observable, contrary to the claim. -/
theorem cached_draw_shows_stale_frame :
    ((on_draw ((on_draw ⟨none, none⟩ ⟨2, 2, [0, 0, 0, 0]⟩ 4 4).2)
        ⟨2, 2, [9, 9, 9, 9]⟩ 4 4).1).srcPix = [0, 0, 0, 0] ∧
      (draw_uncached ⟨2, 2, [9, 9, 9, 9]⟩ 4 4).srcPix = [9, 9, 9, 9] ∧
      (on_draw ((on_draw ⟨none, none⟩ ⟨2, 2, [0, 0, 0, 0]⟩ 4 4).2)
          ⟨2, 2, [9, 9, 9, 9]⟩ 4 4).1
        ≠ draw_uncached ⟨2, 2, [9, 9, 9, 9]⟩ 4 4 := by
  have hfirst : on_draw ⟨none, none⟩ ⟨2, 2, [0, 0, 0, 0]⟩ 4 4
      = (scale_simple ⟨2, 2, [0, 0, 0, 0]⟩ (scaleDims 2 2 4 4).1
          (scaleDims 2 2 4 4).2,
         ⟨some (scale_simple ⟨2, 2, [0, 0, 0, 0]⟩ (scaleDims 2 2 4 4).1
            (scaleDims 2 2 4 4).2),
          some (2, 2, (scaleDims 2 2 4 4).1, (scaleDims 2 2 4 4).2)⟩) := by
    unfold on_draw
    rw [if_neg]
    intro hcontra
    exact Option.noConfusion hcontra
  have hsecond : (on_draw ((on_draw ⟨none, none⟩ ⟨2, 2, [0, 0, 0, 0]⟩ 4 4).2)
      ⟨2, 2, [9, 9, 9, 9]⟩ 4 4).1
      = scale_simple ⟨2, 2, [0, 0, 0, 0]⟩ (scaleDims 2 2 4 4).1
          (scaleDims 2 2 4 4).2 := by
    rw [hfirst]
    unfold on_draw
    rw [if_pos rfl]
  refine ⟨?_, rfl, ?_⟩
  · rw [hsecond]
    rfl
  · rw [hsecond]
    intro hcontra
    have hpix := congrArg Pixbuf.srcPix hcontra
    simp [scale_simple, draw_uncached] at hpix

/-! ## Timelapse orchestration (TimelapseView)

String handling is embedded at the level of character lists, matching the
code-point semantics of Python str: slicing, suffix tests, lexicographic
sorting and single-character replacement are all defined directly on the
underlying character sequence. -/

/-- The single-quote character (code point 39). -/
def sq : Char := Char.ofNat 39

/-- The backslash character (code point 92). -/
def bsl : Char := Char.ofNat 92

/-- Replacement performed for one character by the Python expression
photo.replace(single quote, quote backslash quote quote): a single quote
becomes the four-character escape sequence, every other character is kept. -/
def escChar (c : Char) : List Char :=
  if c = sq then [sq, bsl, sq, sq] else [c]

/-- Embedding of the single-character str.replace call used on each photo
filename before it is written into the concat script. -/
def escapeQuote (s : String) : String :=
  ⟨s.data.flatMap escChar⟩

/-- Embedding of the Python slice s[:n] (first n code points). -/
def pyTake (s : String) (n : Nat) : String :=
  ⟨s.data.take n⟩

/-- Embedding of Python str.endswith with a single suffix. -/
def endswith (s suf : String) : Bool :=
  suf.data.isSuffixOf s.data

/-- File filter used by TimelapseView: keep names ending in .jpg or .png. -/
def imageFile (f : String) : Bool :=
  endswith f ".jpg" || endswith f ".png"

/-- Lexicographic comparison of character lists by code point, the order
Python uses to compare strings of these filenames. -/
def charsLe : List Char → List Char → Bool
  | [], _ => true
  | _ :: _, [] => false
  | c :: cs, d :: ds =>
    if c.toNat < d.toNat then true
    else if d.toNat < c.toNat then false
    else charsLe cs ds

/-- One insertion step of an ascending stable sort on strings. -/
def insertSorted (x : String) : List String → List String
  | [] => [x]
  | y :: ys => if charsLe x.data y.data then x :: y :: ys else y :: insertSorted x ys

/-- Embedding of Python sorted on a list of strings: the ascending stable
sort (on a total order with only identical ties, any stable ascending sort
computes the same list as Python sorted). -/
def pySorted (l : List String) : List String :=
  l.foldr insertSorted []

/-- Outcome of TimelapseView.on_create: either the early return on an empty
photo list (status text set, no worker started), or a worker dispatched with
the sorted photo list and the chosen duration. -/
inductive CreateResult : Type
  | noPhotos
  | dispatched (photos : List String) (duration : ℚ)
deriving DecidableEq

/-- Embedding of TimelapseView.on_create given the directory listing: filter
to image files, sort by filename, fail with noPhotos when the list is empty,
otherwise dispatch the encode worker. -/
def on_create (listing : List String) (duration : ℚ) : CreateResult :=
  if (pySorted (listing.filter imageFile)).length = 0 then CreateResult.noPhotos
  else CreateResult.dispatched (pySorted (listing.filter imageFile)) duration

/-- One entry of the generated concat render script: an escaped source file
name and, for the in-loop entries, the display duration written on the
following line (the trailing entry has none). -/
structure ScriptEntry : Type where
  name : String
  dur : Option ℚ
deriving DecidableEq

/-- Embedding of the script-writing loop of create_timelapse_thread: one
(file, duration) entry per photo in order, then, when the list is
non-empty, one extra trailing file entry repeating the last photo with no
duration line.  Filenames are escaped with escapeQuote exactly as in the
source. -/
def scriptEntries (photos : List String) (d : ℚ) : List ScriptEntry :=
  (photos.map fun p => ScriptEntry.mk (escapeQuote p) (some d)) ++
    (match photos.getLast? with
     | some p => [ScriptEntry.mk (escapeQuote p) none]
     | none => [])

/-- Claim C4: for every non-empty photo list and duration d the script is
the in-order (file, d) entries, one per photo, followed by exactly one
trailing entry repeating the final photo with no duration; the script has
one entry more than there are photos. -/
theorem script_entries_structure :
    ∀ (photos : List String) (d : ℚ) (h : photos ≠ []),
      scriptEntries photos d
          = (photos.map fun p => ScriptEntry.mk (escapeQuote p) (some d))
            ++ [ScriptEntry.mk (escapeQuote (photos.getLast h)) none] ∧
        (scriptEntries photos d).length = photos.length + 1 := by
  intro photos d h
  have hlast : photos.getLast? = some (photos.getLast h) :=
    List.getLast?_eq_getLast photos h
  constructor
  · unfold scriptEntries
    rw [hlast]
  · unfold scriptEntries
    rw [hlast]
    simp

/-- Witness for claim C4 at the concrete input of the spec example: photos
a, b, c with duration one fifth of a second give the four entries
(a, d), (b, d), (c, d), (c, no duration). -/
theorem script_entries_structure_witness :
    (["a.jpg", "b.jpg", "c.jpg"] : List String) ≠ [] ∧
      scriptEntries ["a.jpg", "b.jpg", "c.jpg"] (1 / 5)
        = [ScriptEntry.mk "a.jpg" (some (1 / 5)),
           ScriptEntry.mk "b.jpg" (some (1 / 5)),
           ScriptEntry.mk "c.jpg" (some (1 / 5)),
           ScriptEntry.mk "c.jpg" none] := by
  have h : (["a.jpg", "b.jpg", "c.jpg"] : List String) ≠ [] := by decide
  refine ⟨h, ?_⟩
  rw [(script_entries_structure ["a.jpg", "b.jpg", "c.jpg"] (1 / 5) h).1]
  rfl

theorem insertSorted_length (x : String) :
    ∀ l : List String, (insertSorted x l).length = l.length + 1 := by
  intro l
  induction l with
  | nil => rfl
  | cons y ys ih =>
    unfold insertSorted
    split
    · simp
    · simp [ih]

theorem pySorted_length (l : List String) : (pySorted l).length = l.length := by
  induction l with
  | nil => rfl
  | cons x xs ih =>
    show (insertSorted x (pySorted xs)).length = xs.length + 1
    rw [insertSorted_length, ih]

/-- Claim C6: on_create returns the noPhotos failure exactly when the
directory listing contains no image file (in which case no worker value is
produced at all), and dispatches a worker on the sorted photo list whenever
at least one image file is present. -/
theorem on_create_requires_photos :
    ∀ (listing : List String) (d : ℚ),
      (on_create listing d = CreateResult.noPhotos ↔
        listing.filter imageFile = []) ∧
      (listing.filter imageFile ≠ [] →
        on_create listing d
          = CreateResult.dispatched (pySorted (listing.filter imageFile)) d) := by
  intro listing d
  have hlen : (pySorted (listing.filter imageFile)).length
      = (listing.filter imageFile).length := pySorted_length _
  constructor
  · constructor
    · intro h
      unfold on_create at h
      by_cases hc : (pySorted (listing.filter imageFile)).length = 0
      · rw [hlen] at hc
        exact List.length_eq_zero.mp hc
      · rw [if_neg hc] at h
        exact absurd h (by intro hcontra; exact CreateResult.noConfusion hcontra)
    · intro h
      unfold on_create
      rw [if_pos]
      rw [hlen, h]
      rfl
  · intro hne
    unfold on_create
    rw [if_neg]
    rw [hlen]
    intro hc
    exact hne (List.length_eq_zero.mp hc)

/-- Witness for claim C6 at concrete inputs: a listing with no image file
fails with noPhotos, and a listing with two image files (plus a non-image)
dispatches a worker carrying the two filenames in sorted order. -/
theorem on_create_requires_photos_witness :
    on_create ["notes.txt"] (1 / 5) = CreateResult.noPhotos ∧
      ["b.jpg", "a.jpg", "notes.txt"].filter imageFile ≠ [] ∧
      on_create ["b.jpg", "a.jpg", "notes.txt"] (1 / 5)
        = CreateResult.dispatched ["a.jpg", "b.jpg"] (1 / 5) := by
  refine ⟨?_, by decide, ?_⟩
  · exact (on_create_requires_photos ["notes.txt"] (1 / 5)).1.mpr (by decide)
  · have h := (on_create_requires_photos ["b.jpg", "a.jpg", "notes.txt"]
      (1 / 5)).2 (by decide)
    rw [h]
    rfl

/-- Parser for the quoting convention of the concat demuxer line
file quoted-name: quoted spans delimited by single quotes, with a
backslash escaping the next character outside a quoted span.  Returns the
denoted character sequence, or none for a malformed input.  The boolean
argument records whether the parse position is inside a quoted span. -/
def unq : List Char → Bool → Option (List Char)
  | [], inQ => if inQ then none else some []
  | c :: cs, true =>
    if c = sq then unq cs false else (unq cs true).map (fun r => c :: r)
  | c :: cs, false =>
    if c = sq then unq cs true
    else if c = bsl then
      match cs with
      | [] => none
      | d :: ds => (unq ds false).map (fun r => d :: r)
    else (unq cs false).map (fun r => c :: r)

theorem unq_quote_inside (Y : List Char) : unq (sq :: Y) true = unq Y false :=
  rfl

theorem unq_char_inside (c : Char) (Y : List Char) (h : ¬c = sq) :
    unq (c :: Y) true = (unq Y true).map (fun r => c :: r) := by
  show (if c = sq then unq Y false else (unq Y true).map (fun r => c :: r)) = _
  rw [if_neg h]

theorem unq_quote_outside (Y : List Char) : unq (sq :: Y) false = unq Y true := by
  cases Y with
  | nil => rfl
  | cons a as => rfl

theorem unq_bsl_outside (d : Char) (ds : List Char) :
    unq (bsl :: d :: ds) false = (unq ds false).map (fun r => d :: r) :=
  rfl

theorem unq_escape : ∀ l : List Char, unq (l.flatMap escChar ++ [sq]) true = some l := by
  intro l
  induction l with
  | nil => rfl
  | cons c cs ih =>
    rw [List.flatMap_cons]
    by_cases hc : c = sq
    · subst hc
      have hesc : escChar sq = [sq, bsl, sq, sq] := by simp [escChar]
      rw [hesc]
      simp only [List.cons_append, List.nil_append, List.append_assoc]
      rw [unq_quote_inside, unq_bsl_outside, unq_quote_outside, ih]
      rfl
    · have hesc : escChar c = [c] := by simp [escChar, hc]
      rw [hesc]
      simp only [List.cons_append, List.nil_append, List.append_assoc]
      rw [unq_char_inside c _ hc, ih]
      rfl

theorem unq_roundtrip (s : String) :
    unq (sq :: (escapeQuote s).data ++ [sq]) false = some s.data := by
  show unq (sq :: (s.data.flatMap escChar ++ [sq])) false = some s.data
  rw [unq_quote_outside]
  exact unq_escape s.data

/-- Claim C10: every filename written into the render script, the trailing
repeated final photo included, has each single-quote character replaced by
the quote backslash quote quote escape sequence, and the resulting quoted
file line is well formed: parsing it back under the concat-demuxer quoting
convention recovers exactly the original photo filename. -/
theorem script_names_well_quoted :
    ∀ (photos : List String) (d : ℚ),
      (scriptEntries photos d).map
          (fun e => unq (sq :: e.name.data ++ [sq]) false)
        = (photos.map fun p => some p.data)
          ++ (match photos.getLast? with
              | some p => [some p.data]
              | none => []) := by
  intro photos d
  unfold scriptEntries
  rw [List.map_append, List.map_map]
  congr 1
  · apply List.map_congr_left
    intro a _
    exact unq_roundtrip a
  · cases photos.getLast? with
    | none => rfl
    | some p =>
      simp only [List.map_cons, List.map_nil]
      rw [unq_roundtrip p]

/-- Result value marshalled back to the presentation context by the encode
worker: completion with the output path, or an error message. -/
inductive TLResult : Type
  | complete (output_file : String)
  | error (msg : String)
deriving DecidableEq

/-- The presentation-side state touched by the completion handlers: status
label text, progress fraction, and whether the create button is enabled. -/
structure UIState : Type where
  status : String
  progressFrac : ℚ
  createEnabled : Bool
deriving DecidableEq

/-- The path-separator character (code point 47). -/
def slashChar : Char := Char.ofNat 47

/-- Embedding of os.path.basename for the forward-slash paths built by the
encode worker. -/
def basename (p : String) : String :=
  ⟨(p.data.reverse.takeWhile (fun c => ¬(c = slashChar))).reverse⟩

/-- Embedding of TimelapseView.on_timelapse_complete: set the status text,
fill the progress bar, re-enable the create button. -/
def on_timelapse_complete (output_file : String) : UIState :=
  UIState.mk ("Timelapse created: " ++ basename output_file) 1 true

/-- Embedding of TimelapseView.on_timelapse_error: surface the first 100
characters of the diagnostic text, reset the progress bar, re-enable the
create button. -/
def on_timelapse_error (error_msg : String) : UIState :=
  UIState.mk ("Error: " ++ pyTake error_msg 100) 0 true

/-- Embedding of the completion dispatch at the end of
create_timelapse_thread: exit code 0 marshals a completion carrying the
output path, any other exit code marshals the decoded standard-error
text. -/
def threadFinish (returncode : Int) (stderrText output_file : String) : TLResult :=
  if returncode = 0 then TLResult.complete output_file
  else TLResult.error stderrText

/-- Dispatch of the marshalled result to the matching GLib idle handler. -/
def handleResult : TLResult → UIState
  | TLResult.complete f => on_timelapse_complete f
  | TLResult.error m => on_timelapse_error m

/-- Claim C7: exit code 0 yields a completion carrying the output path, any
non-zero exit code yields an error result whose surfaced message is the
standard-error text truncated to at most 100 characters (a prefix of the
full text), and in either case the handler re-enables the create action. -/
theorem encode_result_surfacing :
    ∀ (rc : Int) (stderrText output_file : String),
      (rc = 0 →
        threadFinish rc stderrText output_file = TLResult.complete output_file ∧
        (handleResult (threadFinish rc stderrText output_file)).createEnabled
          = true) ∧
      (rc ≠ 0 →
        threadFinish rc stderrText output_file = TLResult.error stderrText ∧
        handleResult (threadFinish rc stderrText output_file)
          = UIState.mk ("Error: " ++ pyTake stderrText 100) 0 true ∧
        (pyTake stderrText 100).length ≤ 100 ∧
        stderrText.data = (pyTake stderrText 100).data
          ++ stderrText.data.drop 100) := by
  intro rc st out
  constructor
  · intro h0
    have ht : threadFinish rc st out = TLResult.complete out := by
      unfold threadFinish
      rw [if_pos h0]
    refine ⟨ht, ?_⟩
    rw [ht]
    rfl
  · intro hne
    have ht : threadFinish rc st out = TLResult.error st := by
      unfold threadFinish
      rw [if_neg hne]
    refine ⟨ht, ?_, ?_, ?_⟩
    · rw [ht]
      rfl
    · exact List.length_take_le 100 st.data
    · exact (List.take_append_drop 100 st.data).symm

/-- Witness for claim C7 at concrete inputs: exit code 0 leaves the create
action enabled after completion, and exit code 1 with diagnostic text boom
surfaces the truncated message with the create action enabled. -/
theorem encode_result_surfacing_witness :
    (handleResult (threadFinish 0 "boom" "out.mp4")).createEnabled = true ∧
      handleResult (threadFinish 1 "boom" "out.mp4")
        = UIState.mk ("Error: " ++ pyTake "boom" 100) 0 true :=
  ⟨((encode_result_surfacing 0 "boom" "out.mp4").1 rfl).2,
   (((encode_result_surfacing 1 "boom" "out.mp4").2 (by decide)).2).1⟩

/-- Environment of one run of create_timelapse_thread, recording which of
its fallible steps succeed: whether the script file can be written, whether
launching the external process raises (for example because the encoder
binary is missing), whether os.remove succeeds, and the process exit code
and standard-error text when the process does run.  excMsg is the text of
the exception raised by a failing step. -/
structure ExecEnv : Type where
  writeScriptOk : Bool
  popenRaises : Bool
  removeOk : Bool
  returncode : Int
  stderrText : String
  excMsg : String

/-- Observable trace of one run of create_timelapse_thread: whether the
script file got written, whether its removal was attempted, whether the
removal succeeded, and the result marshalled back. -/
structure ThreadTrace : Type where
  scriptWritten : Bool
  removeAttempted : Bool
  removeSucceeded : Bool
  result : TLResult
deriving DecidableEq

/-- Embedding of the control flow of create_timelapse_thread: the body runs
under one try/except whose handler marshals the exception text.  Writing
the script can raise (nothing written, no removal); launching the process
can raise (script left behind, no removal — there is no finally block); when
the process runs to completion, removal of the script is attempted, its
failure swallowed by the inner bare except, and the exit code decides the
result. -/
def create_timelapse_thread (env : ExecEnv) (output_file : String) :
    ThreadTrace :=
  if env.writeScriptOk = false then
    ThreadTrace.mk false false false (TLResult.error env.excMsg)
  else if env.popenRaises = true then
    ThreadTrace.mk true false false (TLResult.error env.excMsg)
  else
    ThreadTrace.mk true true env.removeOk
      (if env.returncode = 0 then TLResult.complete output_file
       else TLResult.error env.stderrText)

/-- Claim C8, counterexample: a job that writes the script file and then
fails to launch the external process (the launch raises, for example when
the encoder binary is absent) never attempts to remove the script file —
the cleanup sits after the process wait inside the try block, with no
finally — contradicting removal regardless of outcome. -/
theorem script_cleanup_skipped_on_exception :
    (create_timelapse_thread
        (ExecEnv.mk true true true 0 "" "ffmpeg not found") "out.mp4").scriptWritten
        = true ∧
      (create_timelapse_thread
        (ExecEnv.mk true true true 0 "" "ffmpeg not found") "out.mp4").removeAttempted
        = false :=
  ⟨rfl, rfl⟩

/-- Claim C8, amended: for every job that writes the script file and whose
external process launch does not raise, removal of the script file is
attempted after the process finishes regardless of the exit code, with a
removal failure itself swallowed (the marshalled result does not depend on
whether the removal succeeds); when the launch raises, the script file is
left behind. -/
theorem script_cleanup_after_process :
    (∀ (env : ExecEnv) (out : String),
      env.writeScriptOk = true → env.popenRaises = false →
        (create_timelapse_thread env out).scriptWritten = true ∧
        (create_timelapse_thread env out).removeAttempted = true) ∧
      ∀ (env₁ env₂ : ExecEnv) (out : String),
        env₁.writeScriptOk = env₂.writeScriptOk →
        env₁.popenRaises = env₂.popenRaises →
        env₁.returncode = env₂.returncode →
        env₁.stderrText = env₂.stderrText →
        env₁.excMsg = env₂.excMsg →
        (create_timelapse_thread env₁ out).result
          = (create_timelapse_thread env₂ out).result := by
  constructor
  · intro env out hw hp
    unfold create_timelapse_thread
    rw [hw, hp]
    simp
  · intro env₁ env₂ out h1 h2 h3 h4 h5
    unfold create_timelapse_thread
    rw [h1, h2, h3, h4, h5]
    split_ifs <;> rfl

/-- Witness for claim C8 at concrete inputs: with the script written, the
launch succeeding and the process exiting with code 1, removal is attempted
even though os.remove itself fails, and the marshalled result is the same
whether or not the removal succeeds. -/
theorem script_cleanup_after_process_witness :
    (create_timelapse_thread
        (ExecEnv.mk true false false 1 "boom" "exc") "o.mp4").removeAttempted
        = true ∧
      (create_timelapse_thread
          (ExecEnv.mk true false true 1 "boom" "exc") "o.mp4").result
        = (create_timelapse_thread
            (ExecEnv.mk true false false 1 "boom" "exc") "o.mp4").result :=
  ⟨(script_cleanup_after_process.1
      (ExecEnv.mk true false false 1 "boom" "exc") "o.mp4" rfl rfl).2,
   script_cleanup_after_process.2
      (ExecEnv.mk true false true 1 "boom" "exc")
      (ExecEnv.mk true false false 1 "boom" "exc") "o.mp4" rfl rfl rfl rfl rfl⟩

end DailyPic
